import Mathlib

/-! sealdice-core: dice rolls, the expression facade and the batched attribute upsert

A shallow embedding of `dice/dice.go` (`DiceRoll`, `DiceRoll64`, `rebuildParser`,
`ExprEvalBase`, `ExprEval`, `ExprText`) and of `AttrsPutsByIDBatch` in
`dice/model/attrs_new.go`.

Conventions.
* Go `int` and `int64` are 64-bit two's-complement integers (Go on a 64-bit platform):
  they are modelled as `Int`, and every arithmetic result is passed through `wrap64`.
* Go `%` is the truncating remainder, `Int.tmod`.
* The process-wide generator of `math/rand` is an explicit state `RandState` that is
  threaded through the roll functions.
* A Go panic (nil dereference, failed type assertion) is the `Outcome.panicked` result.
-/

namespace SealDice

/-! ## Machine integers -/

/-- Smallest `int64`. -/
def minInt64 : Int := -(2 ^ 63)

/-- Largest `int64`. -/
def maxInt64 : Int := 2 ^ 63 - 1

/-- Two's-complement wrap-around of a mathematical integer into the `int64` range. -/
def wrap64 (x : Int) : Int := (x + 2 ^ 63) % 2 ^ 64 - 2 ^ 63

/-- Membership in the `int64` range. -/
def isInt64 (x : Int) : Prop := minInt64 ≤ x ∧ x ≤ maxInt64

instance (x : Int) : Decidable (isInt64 x) := by
  unfold isInt64; infer_instance

/-! ## The random source (`math/rand`, global generator) -/

/-- State of the global generator: the sequence of raw values it is going to produce and
the number of values already consumed. -/
structure RandState where
  draws : Nat → Nat
  drawn : Nat

/-- Model of `rand.Int63()`: a non-negative 63-bit integer, and the generator advances. -/
def randInt63 (g : RandState) : Int × RandState :=
  (((g.draws g.drawn % 2 ^ 63 : Nat) : Int), { g with drawn := g.drawn + 1 })

/-- Model of `rand.Int()` with a 64-bit `int`: `u := uint(Int63()); int(u << 1 >> 1)`. -/
def randInt (g : RandState) : Int × RandState :=
  let p := randInt63 g
  (((p.1.toNat * 2 % 2 ^ 64 / 2 : Nat) : Int), p.2)

/-- A generator whose next raw value is `r`. -/
def sourceYielding (r : Nat) : RandState := { draws := fun _ => r, drawn := 0 }

/-! ## `DiceRoll` and `DiceRoll64` -/

/-- Embedding of `func DiceRoll(dicePoints int) int`. -/
def DiceRoll (dicePoints : Int) (g : RandState) : Int × RandState :=
  if dicePoints ≤ 0 then
    (0, g)
  else
    let p := randInt g
    let val := wrap64 (wrap64 (p.1.tmod dicePoints) + 1)
    (val, p.2)

/-- Embedding of `func DiceRoll64(dicePoints int64) int64`. -/
def DiceRoll64 (dicePoints : Int) (g : RandState) : Int × RandState :=
  if dicePoints = 0 then
    (0, g)
  else
    let p := randInt63 g
    let val := wrap64 (wrap64 (p.1.tmod dicePoints) + 1)
    (val, p.2)

/-- Number of raw draws `r` in `[0, 2^63)` on which `DiceRoll dicePoints` shows face `k`. -/
def faceCount (dicePoints k : Int) : Nat :=
  ((Finset.range (2 ^ 63)).filter
    (fun r => (DiceRoll dicePoints (sourceYielding r)).1 = k)).card

/-! ## The expression facade (`rebuildParser`, `ExprEvalBase`, `ExprEval`, `ExprText`)

The generated parser, its `RollExpression` and the virtual machine are not part of
`dice/dice.go`; their methods are the fields of `ParserEnv`. The parser is a value that every
method maps to its next state, and each run records the calls it made, each with the parser
it was invoked on. Effects of `Evaluate` on the `Dice` and the `MsgContext` lie behind that
call and are not tracked. -/

/-- Result of running Go code: it returns a value, or it panics. -/
inductive Outcome (α : Type) where
  | returned : α → Outcome α
  | panicked : Outcome α
  deriving DecidableEq, Repr

/-- A non-nil Go `error`, identified by its message; `Option GoError` is the `error` type
and `none` is the nil error. -/
abbrev GoError := String

/-- Dynamic content of an `interface{}` value: a string, a number, or anything else. -/
inductive GoValue where
  | str : String → GoValue
  | num : Int → GoValue
  | other : GoValue
  deriving DecidableEq, Repr

/-- The `RollExpression` embedded in the parser: the flag the facade writes, and the fields
the facade never names. -/
structure RollExpression (σ : Type) where
  BigFailDiceOn : Bool
  rest : σ
  deriving DecidableEq, Repr

/-- The `DiceRollParser`: source buffer, roll expression, and the error left by `Execute`. -/
structure DiceRollParser (σ : Type) where
  Buffer : String
  RollExpression : RollExpression σ
  Error : Option GoError
  deriving DecidableEq, Repr

/-- The value `num` returned by `Evaluate`, read through `num.Value` and `num.TypeId`. -/
structure VmStack where
  Value : GoValue
  TypeId : Nat
  deriving DecidableEq, Repr

/-- The `VmResult` built by `ExprEvalBase`; `Parser` is the parser the result points to. -/
structure VmResult (σ : Type) where
  Value : GoValue
  TypeId : Nat
  Parser : DiceRollParser σ
  deriving DecidableEq, Repr

/-- What `parser.Evaluate(d, ctx)` hands back: the parser as it leaves it, the pointer `num`
(`none` is nil), the detail text and the error. -/
structure EvalReturn (σ : Type) where
  parser : DiceRollParser σ
  num : Option VmStack
  detail : String
  err : Option GoError

/-- One call made on the parser, with the parser state it was invoked on. -/
inductive Call (σ : Type) where
  | Init : DiceRollParser σ → Call σ
  | RollExpressionInit : Nat → DiceRollParser σ → Call σ
  | Parse : DiceRollParser σ → Call σ
  | Execute : DiceRollParser σ → Call σ
  | Evaluate : DiceRollParser σ → Call σ
  deriving DecidableEq, Repr

/-- The code the facade calls and `dice/dice.go` does not define: the zero value of the
unnamed parser fields, the constant `VMTypeString`, and the parser methods. `δ` is `Dice`
and `κ` is `MsgContext`. -/
structure ParserEnv (σ δ κ : Type) where
  zero : σ
  VMTypeString : Nat
  Init : DiceRollParser σ → DiceRollParser σ
  RollExpressionInit : Nat → DiceRollParser σ → DiceRollParser σ
  Parse : DiceRollParser σ → DiceRollParser σ × Option GoError
  Execute : DiceRollParser σ → DiceRollParser σ
  Evaluate : DiceRollParser σ → δ → κ → EvalReturn σ

/-- A run of a facade function: the calls made on the parser, in order, and the outcome. -/
structure Run (σ α : Type) where
  calls : List (Call σ)
  outcome : Outcome α

/-- The triple `(*VmResult, string, error)`; `none` in the first place is the nil pointer. -/
abbrev EvalTriple (σ : Type) := Option (VmResult σ) × String × Option GoError

/-- Embedding of `func (d *Dice) rebuildParser(buffer string) *DiceRollParser`: the fresh
parser, and the two calls made on it. -/
def rebuildParser {σ δ κ : Type} (env : ParserEnv σ δ κ) (buffer : String) :
    DiceRollParser σ × List (Call σ) :=
  let p0 : DiceRollParser σ :=
    { Buffer := buffer, RollExpression := { BigFailDiceOn := false, rest := env.zero },
      Error := none }
  let p1 := env.Init p0
  let p2 := env.RollExpressionInit 255 p1
  (p2, [Call.Init p0, Call.RollExpressionInit 255 p1])

/-- The assignment `parser.RollExpression.BigFailDiceOn = bigFailDice`. -/
def setBigFailDiceOn {σ : Type} (p : DiceRollParser σ) (bigFailDice : Bool) :
    DiceRollParser σ :=
  { p with RollExpression := { p.RollExpression with BigFailDiceOn := bigFailDice } }

/-- Embedding of `func (d *Dice) ExprEvalBase(buffer string, ctx *MsgContext,
bigFailDice bool) (*VmResult, string, error)`. Reading `num.Value` through a nil `num`
panics. -/
def ExprEvalBase {σ δ κ : Type} (env : ParserEnv σ δ κ) (d : δ) (buffer : String) (ctx : κ)
    (bigFailDice : Bool) : Run σ (EvalTriple σ) :=
  let built := rebuildParser env buffer
  let parsed := env.Parse built.1
  let err := parsed.2
  let parser := setBigFailDiceOn parsed.1 bigFailDice
  let calls1 := built.2 ++ [Call.Parse built.1]
  match err with
  | none =>
    let executed := env.Execute parser
    let calls2 := calls1 ++ [Call.Execute parser]
    match executed.Error with
    | some e => { calls := calls2, outcome := Outcome.returned (none, "", some e) }
    | none =>
      let ev := env.Evaluate executed d ctx
      let calls3 := calls2 ++ [Call.Evaluate executed]
      match ev.num with
      | none => { calls := calls3, outcome := Outcome.panicked }
      | some num =>
        let ret : VmResult σ := { Value := num.Value, TypeId := num.TypeId, Parser := ev.parser }
        { calls := calls3, outcome := Outcome.returned (some ret, ev.detail, none) }
  | some e => { calls := calls1, outcome := Outcome.returned (none, "", some e) }

/-- A stub environment for concrete runs. `Parse` rejects the buffers that contain `?`;
`Execute` leaves the error `E2` on the buffers that contain `!`; `Evaluate` reports the
error `E5` on the buffers that contain `x`, and it yields the buffer without its backticks
as a string, with type id 1 on the buffers that start with a backtick and 0 on the others. -/
def stubEnv : ParserEnv Unit Unit Unit where
  zero := ()
  VMTypeString := 1
  Init := fun p => p
  RollExpressionInit := fun _ p => p
  Parse := fun p => (p, if p.Buffer.data.contains '?' then some "E1" else none)
  Execute := fun p =>
    if p.Buffer.data.contains '!' then { p with Error := some "E2" } else p
  Evaluate := fun p _ _ =>
    { parser := p
      num := some { Value := GoValue.str (String.mk (p.Buffer.data.filter (· ≠ Char.ofNat 96))),
                    TypeId := if p.Buffer.data.head? = some (Char.ofNat 96) then 1 else 0 }
      detail := "trace"
      err := if p.Buffer.data.contains 'x' then some "E5" else none }

theorem wrap64_of_isInt64 {x : Int} (h : isInt64 x) : wrap64 x = x := by
  unfold isInt64 minInt64 maxInt64 at h
  unfold wrap64
  rw [Int.emod_eq_of_lt (by omega) (by omega)]
  omega

theorem randInt63_range (g : RandState) : 0 ≤ (randInt63 g).1 ∧ (randInt63 g).1 < 2 ^ 63 := by
  unfold randInt63
  simp only
  have h : g.draws g.drawn % 2 ^ 63 < 2 ^ 63 := Nat.mod_lt _ (by positivity)
  constructor
  · positivity
  · exact_mod_cast h

theorem randInt_eq_randInt63 (g : RandState) : randInt g = randInt63 g := by
  have h := randInt63_range g
  unfold randInt
  simp only
  have h2 : (randInt63 g).1.toNat < 2 ^ 63 := by omega
  have h3 : (randInt63 g).1.toNat * 2 % 2 ^ 64 / 2 = (randInt63 g).1.toNat := by omega
  rw [h3, Int.toNat_of_nonneg h.1]

/-- Value computed by the roll functions once the draw is known: for a draw in `[0, 2^63)`
and a non-zero number of sides up to sign in `[1, 2^63)`, nothing wraps. -/
theorem roll_value_nowrap {r m : Int} (hr0 : 0 ≤ r) (hm : 0 < m) (hmax : m ≤ maxInt64) :
    wrap64 (wrap64 (r.tmod m) + 1) = r.tmod m + 1 ∧ 1 ≤ r.tmod m + 1 ∧ r.tmod m + 1 ≤ m := by
  have h0 : 0 ≤ r.tmod m := Int.tmod_nonneg m hr0
  have h1 : r.tmod m < m := Int.tmod_lt_of_pos r hm
  have hin : isInt64 (r.tmod m) := by
    unfold isInt64 minInt64 maxInt64
    unfold maxInt64 at hmax
    constructor <;> omega
  have hin2 : isInt64 (r.tmod m + 1) := by
    unfold isInt64 minInt64 maxInt64
    unfold maxInt64 at hmax
    constructor <;> omega
  rw [wrap64_of_isInt64 hin, wrap64_of_isInt64 hin2]
  omega

theorem DiceRoll_of_pos {dicePoints : Int} (g : RandState) (hpos : 0 < dicePoints) :
    DiceRoll dicePoints g
      = (wrap64 (wrap64 ((randInt g).1.tmod dicePoints) + 1), (randInt g).2) := by
  unfold DiceRoll
  rw [if_neg (by omega)]

theorem DiceRoll64_of_ne {dicePoints : Int} (g : RandState) (hne : dicePoints ≠ 0) :
    DiceRoll64 dicePoints g
      = (wrap64 (wrap64 ((randInt63 g).1.tmod dicePoints) + 1), (randInt63 g).2) := by
  unfold DiceRoll64
  rw [if_neg hne]

/-- C1. For `dicePoints > 0` and the non-negative value `r` that `rand.Int()` yields,
`DiceRoll(dicePoints)` returns `r % dicePoints + 1`; this value lies in `[1, dicePoints]`,
it is computed without overflow (the unbounded value is an `int`), and the generator is
advanced by exactly that one draw. -/
theorem DiceRoll_pos_spec (dicePoints r : Int) (g : RandState)
    (hpos : 0 < dicePoints) (hmax : dicePoints ≤ maxInt64) (hr : (randInt g).1 = r) :
    0 ≤ r ∧ (DiceRoll dicePoints g).1 = r.tmod dicePoints + 1 ∧
      r.tmod dicePoints = r % dicePoints ∧
      1 ≤ (DiceRoll dicePoints g).1 ∧ (DiceRoll dicePoints g).1 ≤ dicePoints ∧
      isInt64 (r.tmod dicePoints) ∧ isInt64 (r.tmod dicePoints + 1) ∧
      (DiceRoll dicePoints g).2 = (randInt g).2 := by
  have hr0 : 0 ≤ r := by
    rw [← hr, randInt_eq_randInt63]; exact (randInt63_range g).1
  have hv := roll_value_nowrap hr0 hpos hmax
  have h0 : 0 ≤ r.tmod dicePoints := Int.tmod_nonneg dicePoints hr0
  rw [DiceRoll_of_pos g hpos, hr]
  simp only
  rw [hv.1]
  refine ⟨hr0, rfl, Int.tmod_eq_emod hr0 (le_of_lt hpos), hv.2.1, hv.2.2, ?_, ?_, trivial⟩
  · unfold isInt64 minInt64 maxInt64
    unfold maxInt64 at hmax
    constructor <;> omega
  · unfold isInt64 minInt64 maxInt64
    unfold maxInt64 at hmax
    constructor <;> omega

/-- Witness for C1: a six-sided die on a generator whose next value is 10 shows 5. -/
theorem DiceRoll_pos_spec_witness :
    (0 : Int) < 6 ∧ (6 : Int) ≤ maxInt64 ∧ (randInt (sourceYielding 10)).1 = 10 ∧
      (DiceRoll 6 (sourceYielding 10)).1 = Int.tmod 10 6 + 1 :=
  ⟨by decide, by decide, by decide,
    (DiceRoll_pos_spec 6 10 (sourceYielding 10) (by decide) (by decide) (by decide)).2.1⟩

/-- C2. For `dicePoints <= 0`, `DiceRoll(dicePoints)` returns 0 and leaves the generator
exactly as it found it (no value is drawn), so the result is the same for every generator
state. -/
theorem DiceRoll_nonpos_spec (dicePoints : Int) (g : RandState) (hle : dicePoints ≤ 0) :
    DiceRoll dicePoints g = (0, g) ∧
      ∀ g2 : RandState, (DiceRoll dicePoints g2).1 = (DiceRoll dicePoints g).1 := by
  unfold DiceRoll
  simp [hle]

/-- Witness for C2: `DiceRoll(-4)` on a generator about to yield 10. -/
theorem DiceRoll_nonpos_spec_witness :
    (-4 : Int) ≤ 0 ∧ DiceRoll (-4) (sourceYielding 10) = (0, sourceYielding 10) :=
  ⟨by decide, (DiceRoll_nonpos_spec (-4) (sourceYielding 10) (by decide)).1⟩

/-- C6. On non-negative sides `DiceRoll64` has the contract of `DiceRoll`: it returns 0 for
0 sides without drawing; for `dicePoints > 0` and the draw `r` of `rand.Int63()` (which lies
in `[0, 2^63)`) it returns `r % dicePoints + 1`, a value of `[1, dicePoints]` computed
without `int64` overflow; and on the same generator state it returns what `DiceRoll`
returns. -/
theorem DiceRoll64_nonneg_spec (dicePoints r : Int) (g : RandState)
    (h0 : 0 ≤ dicePoints) (hmax : dicePoints ≤ maxInt64) (hr : (randInt63 g).1 = r) :
    (0 ≤ r ∧ r < 2 ^ 63) ∧
      (dicePoints = 0 → DiceRoll64 dicePoints g = (0, g)) ∧
      (0 < dicePoints →
        (DiceRoll64 dicePoints g).1 = r.tmod dicePoints + 1 ∧
        r.tmod dicePoints = r % dicePoints ∧
        1 ≤ (DiceRoll64 dicePoints g).1 ∧ (DiceRoll64 dicePoints g).1 ≤ dicePoints ∧
        isInt64 (r.tmod dicePoints) ∧ isInt64 (r.tmod dicePoints + 1)) ∧
      (randInt g).1 = r ∧
      DiceRoll64 dicePoints g = DiceRoll dicePoints g := by
  have hrange : 0 ≤ r ∧ r < 2 ^ 63 := by rw [← hr]; exact randInt63_range g
  refine ⟨hrange, ?_, ?_, ?_, ?_⟩
  · intro hz
    unfold DiceRoll64
    rw [if_pos hz]
  · intro hpos
    have hv := roll_value_nowrap hrange.1 hpos hmax
    have hm0 : 0 ≤ r.tmod dicePoints := Int.tmod_nonneg dicePoints hrange.1
    rw [DiceRoll64_of_ne g (by omega), hr]
    simp only
    rw [hv.1]
    refine ⟨rfl, Int.tmod_eq_emod hrange.1 h0, hv.2.1, hv.2.2, ?_, ?_⟩
    · unfold isInt64 minInt64 maxInt64
      unfold maxInt64 at hmax
      constructor <;> omega
    · unfold isInt64 minInt64 maxInt64
      unfold maxInt64 at hmax
      constructor <;> omega
  · rw [randInt_eq_randInt63, hr]
  · rcases eq_or_lt_of_le h0 with hz | hpos
    · unfold DiceRoll64 DiceRoll
      rw [if_pos hz.symm, if_pos (by omega)]
    · rw [DiceRoll64_of_ne g (by omega), DiceRoll_of_pos g hpos, randInt_eq_randInt63]

/-- Witness for C6: twenty sides on a generator whose next value is 47. -/
theorem DiceRoll64_nonneg_spec_witness :
    (0 : Int) ≤ 20 ∧ (20 : Int) ≤ maxInt64 ∧ (randInt63 (sourceYielding 47)).1 = 47 ∧
      DiceRoll64 20 (sourceYielding 47) = DiceRoll 20 (sourceYielding 47) :=
  ⟨by decide, by decide, by decide,
    (DiceRoll64_nonneg_spec 20 47 (sourceYielding 47)
      (by decide) (by decide) (by decide)).2.2.2.2⟩

/-- C9. Negative sides in `DiceRoll64` reach the truncating remainder: for `dicePoints < 0`
other than the smallest `int64` and the draw `r` of `rand.Int63()`, the result is
`r % dicePoints + 1`, it is what `DiceRoll64(-dicePoints)` returns on the same generator
state, it lies in `[1, -dicePoints]`, and it is never 0. -/
theorem DiceRoll64_neg_spec (dicePoints r : Int) (g : RandState)
    (hneg : dicePoints < 0) (hmin : minInt64 < dicePoints) (hr : (randInt63 g).1 = r) :
    (0 ≤ r ∧ r < 2 ^ 63) ∧
      (DiceRoll64 dicePoints g).1 = r.tmod dicePoints + 1 ∧
      isInt64 (r.tmod dicePoints) ∧ isInt64 (r.tmod dicePoints + 1) ∧
      DiceRoll64 dicePoints g = DiceRoll64 (-dicePoints) g ∧
      1 ≤ (DiceRoll64 dicePoints g).1 ∧ (DiceRoll64 dicePoints g).1 ≤ -dicePoints ∧
      (DiceRoll64 dicePoints g).1 ≠ 0 := by
  have hrange : 0 ≤ r ∧ r < 2 ^ 63 := by rw [← hr]; exact randInt63_range g
  have hpos : 0 < -dicePoints := by omega
  have hmax : -dicePoints ≤ maxInt64 := by
    unfold minInt64 at hmin
    unfold maxInt64
    omega
  have hv := roll_value_nowrap hrange.1 hpos hmax
  rw [Int.tmod_neg] at hv
  have hm0 : 0 ≤ r.tmod dicePoints := Int.tmod_nonneg dicePoints hrange.1
  have hE : DiceRoll64 dicePoints g = DiceRoll64 (-dicePoints) g := by
    rw [DiceRoll64_of_ne g (by omega), DiceRoll64_of_ne g (by omega), Int.tmod_neg]
  have hval : (DiceRoll64 dicePoints g).1 = r.tmod dicePoints + 1 := by
    rw [DiceRoll64_of_ne g (by omega), hr]
    exact hv.1
  refine ⟨hrange, hval, ?_, ?_, hE, ?_, ?_, ?_⟩
  · unfold isInt64 minInt64 maxInt64
    unfold maxInt64 at hmax
    constructor <;> omega
  · unfold isInt64 minInt64 maxInt64
    unfold maxInt64 at hmax
    constructor <;> omega
  · rw [hval]; exact hv.2.1
  · rw [hval]; exact hv.2.2
  · rw [hval]; omega

/-- Witness for C9: minus six sides on a generator whose next value is 10 shows 5. -/
theorem DiceRoll64_neg_spec_witness :
    (-6 : Int) < 0 ∧ minInt64 < (-6 : Int) ∧ (randInt63 (sourceYielding 10)).1 = 10 ∧
      (DiceRoll64 (-6) (sourceYielding 10)).1 = Int.tmod 10 (-6) + 1 :=
  ⟨by decide, by decide, by decide,
    (DiceRoll64_neg_spec (-6) 10 (sourceYielding 10)
      (by decide) (by decide) (by decide)).2.1⟩


/-- What `DiceRoll` shows on a generator whose next raw value is `r < 2^63`. -/
theorem DiceRoll_sourceYielding {d r : Nat} (hd : 0 < d) (hmax : (d : Int) ≤ maxInt64)
    (hr : r < 2 ^ 63) : (DiceRoll (d : Int) (sourceYielding r)).1 = ((r % d + 1 : Nat) : Int) := by
  have hdraw : (randInt (sourceYielding r)).1 = (r : Int) := by
    rw [randInt_eq_randInt63]
    unfold randInt63 sourceYielding
    simp only
    rw [Nat.mod_eq_of_lt hr]
  have hpos : (0 : Int) < d := by exact_mod_cast hd
  have hv := roll_value_nowrap (Int.ofNat_nonneg r) hpos hmax
  rw [DiceRoll_of_pos _ hpos, hdraw]
  simp only
  rw [hv.1, ← Int.ofNat_tmod]
  push_cast
  rfl

/-- Closed form of `faceCount`: the draws of `[0, 2^63)` congruent to `k - 1`. -/
theorem faceCount_eq {d k : Nat} (hd : 0 < d) (hmax : (d : Int) ≤ maxInt64)
    (hk1 : 1 ≤ k) (hkd : k ≤ d) :
    faceCount (d : Int) (k : Int) = 2 ^ 63 / d + if k - 1 < 2 ^ 63 % d then 1 else 0 := by
  have hkm : (k - 1) % d = k - 1 := Nat.mod_eq_of_lt (by omega)
  have hcount := Nat.count_modEq_card (2 ^ 63) hd (k - 1)
  rw [hkm, Nat.count_eq_card_filter_range] at hcount
  have hf : (Finset.range (2 ^ 63)).filter
        (fun r => (DiceRoll (d : Int) (sourceYielding r)).1 = (k : Int))
      = (Finset.range (2 ^ 63)).filter (fun r => r ≡ k - 1 [MOD d]) := by
    apply Finset.filter_congr
    intro r hr
    rw [Finset.mem_range] at hr
    rw [DiceRoll_sourceYielding hd hmax hr]
    have hrd : r % d < d := Nat.mod_lt _ hd
    constructor
    · intro h
      have h2 : r % d + 1 = k := by exact_mod_cast h
      unfold Nat.ModEq
      rw [hkm]
      omega
    · intro h
      unfold Nat.ModEq at h
      rw [hkm] at h
      have h2 : r % d + 1 = k := by omega
      exact_mod_cast h2
  unfold faceCount
  rw [hf, hcount]

/-- C7, as stated, fails: with three sides, face 1 is shown on one more draw of `[0, 2^63)`
than face 3, since `2^63 = 3 * 3074457345618258602 + 2`. -/
theorem DiceRoll_three_sides_not_uniform :
    faceCount 3 1 = 3074457345618258603 ∧ faceCount 3 3 = 3074457345618258602 ∧
      faceCount 3 1 ≠ faceCount 3 3 := by
  have h1 := faceCount_eq (d := 3) (k := 1) (by decide) (by decide) (by decide) (by decide)
  have h3 := faceCount_eq (d := 3) (k := 3) (by decide) (by decide) (by decide) (by decide)
  norm_num at h1 h3
  rw [h1, h3]
  decide

/-- C7, amended. For `dicePoints > 0`, face `k` of `[1, dicePoints]` is shown by
`DiceRoll(dicePoints)` on `2^63 / dicePoints` of the draws of `[0, 2^63)`, and on one more
when `k <= 2^63 % dicePoints`. Hence the counts of two faces differ by at most one, they
agree when `dicePoints` divides `2^63`, and otherwise face 1 is shown on exactly one more
draw than face `dicePoints`. -/
theorem DiceRoll_face_counts (dicePoints k k2 : Int)
    (hpos : 0 < dicePoints) (hmax : dicePoints ≤ maxInt64)
    (hk : 1 ≤ k) (hkd : k ≤ dicePoints) (hk2 : 1 ≤ k2) (hk2d : k2 ≤ dicePoints) :
    (faceCount dicePoints k : Int)
        = 2 ^ 63 / dicePoints + (if k ≤ 2 ^ 63 % dicePoints then 1 else 0) ∧
      faceCount dicePoints k ≤ faceCount dicePoints k2 + 1 ∧
      (2 ^ 63 % dicePoints = 0 → faceCount dicePoints k = faceCount dicePoints k2) ∧
      (2 ^ 63 % dicePoints ≠ 0 →
        faceCount dicePoints 1 = faceCount dicePoints dicePoints + 1) := by
  lift dicePoints to ℕ using le_of_lt hpos with d
  lift k to ℕ using (by omega) with a
  lift k2 to ℕ using (by omega) with b
  have hd : 0 < d := by exact_mod_cast hpos
  have ha1 : 1 ≤ a := by exact_mod_cast hk
  have had : a ≤ d := by exact_mod_cast hkd
  have hb1 : 1 ≤ b := by exact_mod_cast hk2
  have hbd : b ≤ d := by exact_mod_cast hk2d
  have hca := faceCount_eq hd hmax ha1 had
  have hcb := faceCount_eq hd hmax hb1 hbd
  have hc1 := faceCount_eq hd hmax (le_refl 1) hd
  have hcd := faceCount_eq hd hmax hd (le_refl d)
  have hrem : 2 ^ 63 % d < d := Nat.mod_lt _ hd
  have hmod : ((2 : Int) ^ 63 % (d : Int) = 0) ↔ (2 ^ 63 % d = 0) := by
    constructor
    · intro h; exact_mod_cast h
    · intro h; exact_mod_cast h
  refine ⟨?_, ?_, ?_, ?_⟩
  · have hiff : ((a : Int) ≤ 2 ^ 63 % (d : Int)) ↔ (a - 1 < 2 ^ 63 % d) := by
      constructor
      · intro h
        have h2 : a ≤ 2 ^ 63 % d := by exact_mod_cast h
        omega
      · intro h
        have h2 : a ≤ 2 ^ 63 % d := by omega
        exact_mod_cast h2
    by_cases hc : a - 1 < 2 ^ 63 % d
    · rw [hca, if_pos hc, if_pos (hiff.mpr hc)]
      push_cast
      rfl
    · rw [hca, if_neg hc, if_neg (fun h => hc (hiff.mp h))]
      push_cast
      rfl
  · rw [hca, hcb]
    split_ifs <;> omega
  · intro h
    rw [hmod] at h
    rw [hca, hcb, h]
    simp
  · intro h
    rw [Ne, hmod] at h
    have hc1b : faceCount ((d : Nat) : Int) 1 = faceCount ((d : Nat) : Int) ((1 : Nat) : Int) := by
      norm_num
    rw [hc1b, hc1, hcd, if_pos (by omega), if_neg (by omega)]

/-- Witness for C7 (amended): faces 1 and 3 of a three-sided die. -/
theorem DiceRoll_face_counts_witness :
    (0 : Int) < 3 ∧ (3 : Int) ≤ maxInt64 ∧ (1 : Int) ≤ 1 ∧ (1 : Int) ≤ 3 ∧ (1 : Int) ≤ 3 ∧
      (3 : Int) ≤ 3 ∧ faceCount 3 1 ≤ faceCount 3 3 + 1 :=
  ⟨by decide, by decide, by decide, by decide, by decide, by decide,
    (DiceRoll_face_counts 3 1 3 (by decide) (by decide) (by decide) (by decide)
      (by decide) (by decide)).2.1⟩

/-! ## The expression facade -/

theorem rebuildParser_calls {σ δ κ : Type} (env : ParserEnv σ δ κ) (buffer : String)
    (c : Call σ) (hc : c ∈ (rebuildParser env buffer).2) :
    (∃ p, c = Call.Init p) ∨ (∃ n p, c = Call.RollExpressionInit n p) := by
  unfold rebuildParser at hc
  simp only [List.mem_cons, List.mem_singleton, List.not_mem_nil, or_false] at hc
  rcases hc with h | h
  · exact Or.inl ⟨_, h⟩
  · exact Or.inr ⟨_, _, h⟩

theorem rebuildParser_no_Execute {σ δ κ : Type} (env : ParserEnv σ δ κ) (buffer : String)
    (p : DiceRollParser σ) : Call.Execute p ∉ (rebuildParser env buffer).2 := by
  intro h
  rcases rebuildParser_calls env buffer _ h with ⟨q, hq⟩ | ⟨n, q, hq⟩ <;> cases hq

theorem rebuildParser_no_Evaluate {σ δ κ : Type} (env : ParserEnv σ δ κ) (buffer : String)
    (p : DiceRollParser σ) : Call.Evaluate p ∉ (rebuildParser env buffer).2 := by
  intro h
  rcases rebuildParser_calls env buffer _ h with ⟨q, hq⟩ | ⟨n, q, hq⟩ <;> cases hq

/-- The run of `ExprEvalBase` when `Parse` returns the error `e`. -/
theorem ExprEvalBase_of_parse_error {σ δ κ : Type} (env : ParserEnv σ δ κ) (d : δ)
    (buffer : String) (ctx : κ) (bigFailDice : Bool) (e : GoError)
    (hparse : (env.Parse (rebuildParser env buffer).1).2 = some e) :
    ExprEvalBase env d buffer ctx bigFailDice
      = { calls := (rebuildParser env buffer).2 ++ [Call.Parse (rebuildParser env buffer).1],
          outcome := Outcome.returned (none, "", some e) } := by
  unfold ExprEvalBase
  simp only [hparse]

/-- The run of `ExprEvalBase` when `Parse` succeeds and `Execute` leaves the error `e`. -/
theorem ExprEvalBase_of_execute_error {σ δ κ : Type} (env : ParserEnv σ δ κ) (d : δ)
    (buffer : String) (ctx : κ) (bigFailDice : Bool) (e : GoError)
    (hparse : (env.Parse (rebuildParser env buffer).1).2 = none)
    (hexec : (env.Execute
      (setBigFailDiceOn (env.Parse (rebuildParser env buffer).1).1 bigFailDice)).Error = some e) :
    ExprEvalBase env d buffer ctx bigFailDice
      = { calls := (rebuildParser env buffer).2 ++ [Call.Parse (rebuildParser env buffer).1]
            ++ [Call.Execute
              (setBigFailDiceOn (env.Parse (rebuildParser env buffer).1).1 bigFailDice)],
          outcome := Outcome.returned (none, "", some e) } := by
  unfold ExprEvalBase
  simp only [hparse, hexec]

/-- The run of `ExprEvalBase` when `Parse` succeeds and `Execute` leaves no error. -/
theorem ExprEvalBase_of_executed {σ δ κ : Type} (env : ParserEnv σ δ κ) (d : δ)
    (buffer : String) (ctx : κ) (bigFailDice : Bool)
    (hparse : (env.Parse (rebuildParser env buffer).1).2 = none)
    (hexec : (env.Execute
      (setBigFailDiceOn (env.Parse (rebuildParser env buffer).1).1 bigFailDice)).Error = none) :
    ExprEvalBase env d buffer ctx bigFailDice
      = { calls := (rebuildParser env buffer).2 ++ [Call.Parse (rebuildParser env buffer).1]
            ++ [Call.Execute
              (setBigFailDiceOn (env.Parse (rebuildParser env buffer).1).1 bigFailDice)]
            ++ [Call.Evaluate (env.Execute
              (setBigFailDiceOn (env.Parse (rebuildParser env buffer).1).1 bigFailDice))],
          outcome :=
            match (env.Evaluate (env.Execute
              (setBigFailDiceOn (env.Parse (rebuildParser env buffer).1).1 bigFailDice))
                d ctx).num with
            | none => Outcome.panicked
            | some num => Outcome.returned
                (some { Value := num.Value, TypeId := num.TypeId,
                        Parser := (env.Evaluate (env.Execute
                          (setBigFailDiceOn (env.Parse (rebuildParser env buffer).1).1
                            bigFailDice)) d ctx).parser },
                 (env.Evaluate (env.Execute
                    (setBigFailDiceOn (env.Parse (rebuildParser env buffer).1).1 bigFailDice))
                      d ctx).detail,
                 none) } := by
  unfold ExprEvalBase
  simp only [hparse, hexec]
  split <;> rfl

/-- Once `Parse` has succeeded and `Execute` has left no error, `ExprEvalBase` returns no
error at all, whatever `Evaluate` reports: it panics on a nil `num` and otherwise returns a
result with a nil error. -/
theorem ExprEvalBase_after_execute_no_error {σ δ κ : Type} (env : ParserEnv σ δ κ) (d : δ)
    (buffer : String) (ctx : κ) (bigFailDice : Bool)
    (hparse : (env.Parse (rebuildParser env buffer).1).2 = none)
    (hexec : (env.Execute
      (setBigFailDiceOn (env.Parse (rebuildParser env buffer).1).1 bigFailDice)).Error = none)
    (val : Option (VmResult σ)) (detail : String) (e : GoError) :
    (ExprEvalBase env d buffer ctx bigFailDice).outcome
      ≠ Outcome.returned (val, detail, some e) := by
  rw [ExprEvalBase_of_executed env d buffer ctx bigFailDice hparse hexec]
  simp only
  split
  · intro h; cases h
  · intro h
    simp only [Outcome.returned.injEq, Prod.mk.injEq] at h
    exact absurd h.2.2 (by simp)

/-- C3 fails on the code: on the stub evaluator the buffer `x+1` parses and compiles,
`Evaluate` reports the error `E5`, and `ExprEvalBase` returns a non-nil result, the trace
and a nil error; the error of `Evaluate` is dropped. -/
theorem ExprEvalBase_drops_Evaluate_error :
    (stubEnv.Parse (rebuildParser stubEnv "x+1").1).2 = none ∧
      (stubEnv.Execute
        (setBigFailDiceOn (stubEnv.Parse (rebuildParser stubEnv "x+1").1).1 false)).Error
          = none ∧
      (stubEnv.Evaluate (stubEnv.Execute
        (setBigFailDiceOn (stubEnv.Parse (rebuildParser stubEnv "x+1").1).1 false))
          () ()).err = some "E5" ∧
      (ExprEvalBase stubEnv () "x+1" () false).outcome
        = Outcome.returned
            (some { Value := GoValue.str "x+1", TypeId := 0,
                    Parser := { Buffer := "x+1",
                                RollExpression := { BigFailDiceOn := false, rest := () },
                                Error := none } },
             "trace", none) ∧
      (ExprEvalBase stubEnv () "x+1" () false).outcome
        ≠ Outcome.returned (none, "", some "E5") := by
  refine ⟨by decide, by decide, by decide, by decide, by decide⟩

/-- C4. Malformed source is never partially executed. If `Parse` returns the error `e`,
`ExprEvalBase` returns `(nil, "", e)` and the only call it makes after building the parser
is `Parse`: neither `Execute` nor `Evaluate` is invoked. If `Parse` succeeds and `Execute`
leaves `parser.Error` set to `e`, `ExprEvalBase` returns `(nil, "", e)` and `Evaluate` is
not invoked. -/
theorem ExprEvalBase_malformed_not_executed {σ δ κ : Type} (env : ParserEnv σ δ κ) (d : δ)
    (buffer : String) (ctx : κ) (bigFailDice : Bool) (e : GoError) :
    ((env.Parse (rebuildParser env buffer).1).2 = some e →
        (ExprEvalBase env d buffer ctx bigFailDice).outcome
            = Outcome.returned (none, "", some e) ∧
          (∀ p, Call.Execute p ∉ (ExprEvalBase env d buffer ctx bigFailDice).calls) ∧
          (∀ p, Call.Evaluate p ∉ (ExprEvalBase env d buffer ctx bigFailDice).calls)) ∧
      ((env.Parse (rebuildParser env buffer).1).2 = none →
        (env.Execute
          (setBigFailDiceOn (env.Parse (rebuildParser env buffer).1).1 bigFailDice)).Error
            = some e →
        (ExprEvalBase env d buffer ctx bigFailDice).outcome
            = Outcome.returned (none, "", some e) ∧
          (∀ p, Call.Evaluate p ∉ (ExprEvalBase env d buffer ctx bigFailDice).calls)) := by
  constructor
  · intro hparse
    rw [ExprEvalBase_of_parse_error env d buffer ctx bigFailDice e hparse]
    refine ⟨rfl, ?_, ?_⟩
    · intro p hp
      simp only [List.mem_append, List.mem_singleton] at hp
      rcases hp with h | h
      · exact rebuildParser_no_Execute env buffer p h
      · cases h
    · intro p hp
      simp only [List.mem_append, List.mem_singleton] at hp
      rcases hp with h | h
      · exact rebuildParser_no_Evaluate env buffer p h
      · cases h
  · intro hparse hexec
    rw [ExprEvalBase_of_execute_error env d buffer ctx bigFailDice e hparse hexec]
    refine ⟨rfl, ?_⟩
    intro p hp
    simp only [List.mem_append, List.mem_singleton] at hp
    rcases hp with (h | h) | h
    · exact rebuildParser_no_Evaluate env buffer p h
    · cases h
    · cases h

/-- Witness for C4: on the stub parser `3d?` is rejected by `Parse` with `E1`, and `1/0!`
parses while `Execute` leaves `E2`; both runs return the error and nothing else. -/
theorem ExprEvalBase_malformed_not_executed_witness :
    (stubEnv.Parse (rebuildParser stubEnv "3d?").1).2 = some "E1" ∧
      (ExprEvalBase stubEnv () "3d?" () true).outcome
        = Outcome.returned (none, "", some "E1") ∧
      (stubEnv.Parse (rebuildParser stubEnv "1/0!").1).2 = none ∧
      (stubEnv.Execute
        (setBigFailDiceOn (stubEnv.Parse (rebuildParser stubEnv "1/0!").1).1 true)).Error
          = some "E2" ∧
      (ExprEvalBase stubEnv () "1/0!" () true).outcome
        = Outcome.returned (none, "", some "E2") :=
  ⟨by decide,
   ((ExprEvalBase_malformed_not_executed stubEnv () "3d?" () true "E1").1 (by decide)).1,
   by decide, by decide,
   ((ExprEvalBase_malformed_not_executed stubEnv () "1/0!" () true "E2").2
      (by decide) (by decide)).1⟩

end SealDice
